import Mathlib

/-!
Shallow embedding of `PlexPlaylistDownload.py`.

The script talks to a remote Plex server through the external `plexapi`
library, resolves a playlist, optionally sorts its items by a named
attribute, downloads each item and renames the first downloaded file of
each item to a zero-padded sequence number.  The remote service and the
filesystem are collaborators: their behaviour is captured in a `World`
value, and each run of `list_playlists` / `download_playlist` is embedded
as a pure function from the world and the options to a trace of observable
events plus an outcome (normal completion, graceful early return after a
printed failure message, or an uncaught Python exception).
-/

deriving instance DecidableEq for Except

namespace PlexPlaylistDownload

/-- Connection-level failures caught by the script:
`plexapi.exceptions.Unauthorized` and `requests.exceptions.ConnectionError`
(the spec calls the latter `Unreachable`). -/
inductive ConnError
  | unauthorized
  | unreachable
deriving DecidableEq, Repr

/-- `plexapi.exceptions.NotFound`, raised by playlist lookup. -/
inductive LookupError
  | notFound
deriving DecidableEq, Repr

/-- Python exceptions that the script does not catch anywhere. -/
inductive PyError
  | attributeError
  | ioError
  | indexError
deriving DecidableEq, Repr

/-- How a run of a top-level operation ends:
`completed` (fell off the end normally), `aborted` (an early `return`
after printing a failure message), or `raised e` (an exception propagated
out of the function uncaught). -/
inductive Outcome
  | completed
  | aborted
  | raised (e : PyError)
deriving DecidableEq, Repr

/-- Observable events of a run: console prints, calls that access
playlist data on the server (`plex.playlist(...)` / `plex.playlists()`),
per-item downloads into a destination directory, and file renames. -/
inductive Event
  | print (s : String)
  | playlistAccess
  | download (dest : String) (files : List String)
  | rename (src dst : String)
deriving DecidableEq, Repr

/-! ### `os.path` helpers (POSIX semantics, as used on lines 110-112) -/

/-- Index of the last occurrence of a character in a list, if any. -/
def lastIdxOf (c : Char) : List Char → Option Nat
  | [] => none
  | a :: as =>
    match lastIdxOf c as with
    | some i => some (i + 1)
    | none => if a = c then some 0 else none

/-- `os.path.dirname`: everything before the last path separator, with
trailing separators stripped unless the head is all separators. -/
def dirname (p : String) : String :=
  match lastIdxOf '/' p.data with
  | none => ""
  | some i =>
    let head := p.data.take (i + 1)
    if head.all (fun c => c = '/') then String.mk head
    else String.mk ((head.reverse.dropWhile (fun c => c = '/')).reverse)

/-- `os.path.splitext`: split at the last dot, provided it lies after the
last separator and the basename is not made of dots only up to that
point. -/
def splitext (p : String) : String × String :=
  let cs := p.data
  let sepIdx : Int := match lastIdxOf '/' cs with | some i => (i : Int) | none => -1
  let dotIdx : Int := match lastIdxOf '.' cs with | some i => (i : Int) | none => -1
  if sepIdx < dotIdx then
    let start := (sepIdx + 1).toNat
    let stop := dotIdx.toNat
    if ((cs.drop start).take (stop - start)).any (fun c => c ≠ '.') then
      (String.mk (cs.take stop), String.mk (cs.drop stop))
    else (p, "")
  else (p, "")

/-- `os.path.join` for two components (POSIX). -/
def pathJoin (a b : String) : String :=
  if b.data.head? = some '/' then b
  else if a = "" ∨ a.data.getLast? = some '/' then a ++ b
  else a ++ "/" ++ b

/-- The `'%03d' % i` format: decimal digits left-padded with zeros to
width three (wider numbers keep all their digits). -/
def fmt3 (n : Nat) : String :=
  let s := toString n
  String.mk (List.replicate (3 - s.length) '0') ++ s

/-! ### Data model -/

/-- One playlist entry.  `attrs` are its named attributes usable as sort
keys (attribute values are modelled as integers; any linearly ordered
value type behaves the same for the ordering claims).  `dl` is the result
of `item.download(...)`: the list of file paths written, or an `IOError`. -/
structure MediaItem where
  attrs : List (String × Int)
  dl : Except Unit (List String)
deriving DecidableEq, Repr

/-- A playlist on the server: display title, category
(`playlistType`), reported item count (`leafCount`) and its items in
native stored order. -/
structure Playlist where
  title : String
  playlistType : String
  leafCount : Nat
  items : List MediaItem
deriving DecidableEq, Repr

/-- Modelled from the spec: the remote Plex server as a black box.
`connect` is the outcome of `PlexServer(host, token)`, `switch` the
outcome of `plex.switchUser(...)`, and `catalog` the playlists visible to
the session (`plex.playlists()` returns it; `plex.playlist(name)` looks
it up by exact title). -/
structure World where
  connect : Except ConnError Unit
  switch : Except ConnError Unit
  catalog : List Playlist
deriving DecidableEq, Repr

/-- The resolved options object built in `DownloadOptions.__init__`. -/
structure DownloadOptions where
  host : String
  token : String
  playlist : Option String
  saveto : Option String
  orderby : Option String
  keep_original_filename : Bool
  user : Option String
deriving DecidableEq, Repr

/-- The parsed command-line arguments that feed `DownloadOptions`. -/
structure Args where
  playlist : Option String
  list : Bool
  host : String
  token : String
  order_by : Option String
  save_to : Option String
  original_filenames : Bool
  switch_user : Option String
deriving DecidableEq, Repr

/-- `DownloadOptions(args)`. -/
def toOptions (a : Args) : DownloadOptions :=
  { host := a.host
    token := a.token
    playlist := a.playlist
    saveto := a.save_to
    orderby := a.order_by
    keep_original_filename := a.original_filenames
    user := a.switch_user }

/-- Modelled from the spec: `plexapi` playlist resolution by exact
title match, failing with `NotFound` when no playlist of that name
exists in the catalog. -/
def plexPlaylist (catalog : List Playlist) (name : Option String) :
    Except LookupError Playlist :=
  match catalog.find? (fun pl => some pl.title == name) with
  | some pl => Except.ok pl
  | none => Except.error LookupError.notFound

/-- `getattr(item, name)` on the duck-typed sort attributes, as an
option instead of a raised `AttributeError`. -/
def getAttr (it : MediaItem) (name : String) : Option Int :=
  (it.attrs.find? (fun p => p.1 == name)).map (fun p => p.2)

/-- Total version of `getAttr` (defaults to `0`); used only under the
hypothesis that the attribute is present. -/
def getAttrD (it : MediaItem) (name : String) : Int :=
  (getAttr it name).getD 0

/-! ### Sorting (line 100: `items.sort(key = lambda x: getattr(x, options.orderby))`)

CPython `list.sort` is documented as a stable ascending sort, and the
stable ascending permutation of a list is unique, so any stable
insertion-based sort is an exact embedding of it.  CPython computes all
keys up front and restores the list if a key computation raises, so a
missing attribute yields `AttributeError` with the list unchanged. -/

/-- Insert `a` into `l`, passing over exactly the elements whose key is
strictly smaller, so that `a` lands before any element of equal key
(stability: `a` stood before all of `l` in the original list). -/
def insertByKey {α β : Type} [LinearOrder β] (k : α → β) (a : α) :
    List α → List α
  | [] => [a]
  | b :: bs => if k b < k a then b :: insertByKey k a bs else a :: b :: bs

/-- Stable ascending insertion sort by a key function. -/
def sortByKey {α β : Type} [LinearOrder β] (k : α → β) : List α → List α
  | [] => []
  | a :: as => insertByKey k a (sortByKey k as)

/-- Lines 99-100: no `--order-by` leaves the native order; otherwise sort
by the named attribute, raising `AttributeError` (with no partial
reordering) when any item lacks it. -/
def orderItems (orderby : Option String) (items : List MediaItem) :
    Except PyError (List MediaItem) :=
  match orderby with
  | none => Except.ok items
  | some key =>
    if items.all (fun it => (getAttr it key).isSome) then
      Except.ok (sortByKey (fun it => getAttrD it key) items)
    else Except.error PyError.attributeError

/-! ### The download path (`download_playlist`, lines 64-115) -/

/-- Line 93: `saveto = './%s/' % (playlist.title if options.saveto == None
else options.saveto)`. -/
def savetoPath (title : String) (saveto : Option String) : String :=
  "./" ++ (match saveto with | none => title | some s => s) ++ "/"

/-- The first file returned by `item.download(...)` (`files[0]`), total
with a dummy default; meaningful under the hypothesis that the download
succeeded with at least one file. -/
def firstFile (it : MediaItem) : String :=
  match it.dl with
  | Except.ok (f :: _) => f
  | _ => ""

/-- Did `item.download(...)` succeed with at least one file? -/
def dlOk (it : MediaItem) : Bool :=
  match it.dl with
  | Except.ok (_ :: _) => true
  | _ => false

/-- Lines 110-112: the new name of a downloaded file `f` at counter `i`:
`os.path.join(os.path.dirname(f), '%03d%s' % (i, ext))` where
`ext` is the extension part of `os.path.splitext(f)`. -/
def renameTarget (i : Nat) (f : String) : String :=
  pathJoin (dirname f) (fmt3 i ++ (splitext f).2)

/-- The download loop of lines 103-114.  `i` is the rename counter
(starting at 1 in the caller).  Each item is downloaded; with
`keep_original_filename` the loop `continue`s, otherwise the first
returned file is renamed to `'%03d%s' % (i, ext)` inside its directory
and the counter advances.  An `IOError` from `item.download`, or an
`IndexError` from `files[0]` on an empty result, is not caught. -/
def exportLoop (saveto : String) (keep : Bool) :
    List MediaItem → Nat → List Event × Outcome
  | [], _ => ([], Outcome.completed)
  | item :: rest, i =>
    match item.dl with
    | Except.error _ => ([], Outcome.raised PyError.ioError)
    | Except.ok files =>
      if keep then
        let r := exportLoop saveto keep rest i
        (Event.download saveto files :: r.1, r.2)
      else
        match files with
        | [] => ([Event.download saveto []], Outcome.raised PyError.indexError)
        | f :: _ =>
          let newf := renameTarget i f
          let r := exportLoop saveto keep rest (i + 1)
          (Event.download saveto files :: Event.rename f newf :: r.1, r.2)

/-- Lines 93-115: the part of `download_playlist` after connecting,
resolving the playlist and switching accounts: compute the destination,
iterate the playlist, sort if requested, then download and rename. -/
def downloadRest (o : DownloadOptions) (pl : Playlist) : List Event × Outcome :=
  let saveto := savetoPath pl.title o.saveto
  let iterEv := Event.print
    ("Iterating playlist... " ++ toString pl.leafCount ++ " items found")
  match orderItems o.orderby pl.items with
  | Except.error e => ([iterEv], Outcome.raised e)
  | Except.ok items =>
    let r := exportLoop saveto o.keep_original_filename items 1
    (iterEv :: Event.print "Downloading files..." :: r.1 ++
      (match r.2 with
       | Outcome.completed => [Event.print " done"]
       | _ => []),
     r.2)

/-- `download_playlist` (lines 64-115): connect (Unauthorized and
ConnectionError print ` failed` and return), resolve the playlist
(NotFound prints ` failed` and returns), optionally switch to the managed
account — note this happens only after the playlist lookup — then hand
over to the destination/ordering/download code. -/
def download_playlist (w : World) (o : DownloadOptions) : List Event × Outcome :=
  match w.connect with
  | Except.error _ => ([Event.print "Connecting to plex... failed"], Outcome.aborted)
  | Except.ok _ =>
    match plexPlaylist w.catalog o.playlist with
    | Except.error _ =>
      ([Event.print "Connecting to plex... done", Event.playlistAccess,
        Event.print "Getting playlist... failed"], Outcome.aborted)
    | Except.ok pl =>
      let pre := [Event.print "Connecting to plex... done", Event.playlistAccess,
        Event.print "Getting playlist... done"]
      match o.user with
      | none =>
        let r := downloadRest o pl
        (pre ++ r.1, r.2)
      | some u =>
        match w.switch with
        | Except.error _ =>
          (pre ++ [Event.print
            ("Switching to managed account " ++ u ++ "... failed")],
           Outcome.aborted)
        | Except.ok _ =>
          let r := downloadRest o pl
          (pre ++ [Event.print
            ("Switching to managed account " ++ u ++ "... done")] ++ r.1,
           r.2)

/-! ### The list path (`list_playlists`, lines 25-62) -/

/-- One step of the grouping loop of lines 53-57: a dict keyed by
`playlistType` holding lists of titles.  A fresh key is appended at the
end (Python dicts preserve insertion order); an existing key has the
title appended to its list in place. -/
def addPl (acc : List (String × List String)) (pl : Playlist) :
    List (String × List String) :=
  if (acc.find? (fun e => e.1 == pl.playlistType)).isSome then
    acc.map (fun e =>
      if e.1 == pl.playlistType then (e.1, e.2 ++ [pl.title]) else e)
  else acc ++ [(pl.playlistType, [pl.title])]

/-- The grouping loop over all playlists, left to right. -/
def groupAux (acc : List (String × List String)) :
    List Playlist → List (String × List String)
  | [] => acc
  | pl :: pls => groupAux (addPl acc pl) pls

/-- Lines 52-57: `playlistsBySection` built from the visible playlists. -/
def groupBySection (pls : List Playlist) : List (String × List String) :=
  groupAux [] pls

/-- The rendering loop of lines 59-62 as print events. -/
def printGroups : List (String × List String) → List Event
  | [] => []
  | e :: g => Event.print (e.1 ++ ":") :: e.2.map Event.print ++ printGroups g

/-- `list_playlists` (lines 25-62): connect, optionally switch to the
managed account (before any playlist access, unlike the download path),
then enumerate and print the grouped playlists. -/
def list_playlists (w : World) (o : DownloadOptions) : List Event × Outcome :=
  match w.connect with
  | Except.error _ => ([Event.print "Connecting to plex... failed"], Outcome.aborted)
  | Except.ok _ =>
    let pre := [Event.print "Connecting to plex... done"]
    let rest := Event.playlistAccess ::
      Event.print "Getting playlists...  done" ::
      Event.print "Supply any of the following playlists to --playlist <playlist>:" ::
      printGroups (groupBySection w.catalog)
    match o.user with
    | none => (pre ++ rest, Outcome.completed)
    | some u =>
      match w.switch with
      | Except.error _ =>
        (pre ++ [Event.print
          ("Switching to managed account " ++ u ++ "... failed")],
         Outcome.aborted)
      | Except.ok _ =>
        (pre ++ [Event.print
          ("Switching to managed account " ++ u ++ "... done")] ++ rest,
         Outcome.completed)

/-! ### `main` (lines 117-171) -/

/-- Modelled from the spec: argparse's mutually exclusive mode group.
The group is created without `required=True`, so it rejects an invocation
only when both `--playlist` and `--list` are supplied. -/
def modeConflict (a : Args) : Bool :=
  a.playlist.isSome && a.list

/-- Lines 162-168: build the options and dispatch on `args.list`; a mode
conflict is rejected by the parser before dispatch. -/
def mainRun (w : World) (a : Args) : List Event × Outcome :=
  if modeConflict a then
    ([Event.print "usage: mutually exclusive arguments"], Outcome.aborted)
  else if a.list then list_playlists w (toOptions a)
  else download_playlist w (toOptions a)

/-! ### Trace observations -/

/-- The rename events of a trace, in order. -/
def renames : List Event → List (String × String)
  | [] => []
  | Event.rename s d :: es => (s, d) :: renames es
  | _ :: es => renames es

/-- The destination directories of the download events of a trace. -/
def dests : List Event → List String
  | [] => []
  | Event.download d _ :: es => d :: dests es
  | _ :: es => dests es

/-- Does an event touch the filesystem (download or rename)? -/
def isWrite : Event → Bool
  | Event.download _ _ => true
  | Event.rename _ _ => true
  | _ => false

/-- A trace that never writes a file. -/
def noWrites (t : List Event) : Bool :=
  t.all (fun e => !isWrite e)

/-! ### Lemmas about the stable sort -/

theorem insertByKey_perm {α β : Type} [LinearOrder β] (k : α → β) (a : α) :
    ∀ l : List α, (insertByKey k a l).Perm (a :: l)
  | [] => List.Perm.refl _
  | b :: bs => by
    unfold insertByKey
    by_cases h : k b < k a
    · rw [if_pos h]
      exact (List.Perm.cons b (insertByKey_perm k a bs)).trans
        (List.Perm.swap a b bs)
    · rw [if_neg h]

theorem sortByKey_perm {α β : Type} [LinearOrder β] (k : α → β) :
    ∀ l : List α, (sortByKey k l).Perm l
  | [] => List.Perm.refl _
  | a :: as =>
    (insertByKey_perm k a (sortByKey k as)).trans
      (List.Perm.cons a (sortByKey_perm k as))

theorem insertByKey_pairwise {α β : Type} [LinearOrder β] (k : α → β) (a : α)
    {l : List α} (h : l.Pairwise (fun x y => k x ≤ k y)) :
    (insertByKey k a l).Pairwise (fun x y => k x ≤ k y) := by
  induction l with
  | nil => simp [insertByKey]
  | cons b bs ih =>
    rcases List.pairwise_cons.mp h with ⟨hb, hbs⟩
    unfold insertByKey
    by_cases hlt : k b < k a
    · rw [if_pos hlt]
      refine List.pairwise_cons.mpr ⟨?_, ih hbs⟩
      intro x hx
      rcases List.mem_cons.mp ((insertByKey_perm k a bs).mem_iff.mp hx) with hxa | hxbs
      · exact hxa ▸ le_of_lt hlt
      · exact hb x hxbs
    · rw [if_neg hlt]
      have hab : k a ≤ k b := le_of_not_lt hlt
      refine List.pairwise_cons.mpr ⟨?_, h⟩
      intro x hx
      rcases List.mem_cons.mp hx with hxb | hxbs
      · exact hxb ▸ hab
      · exact hab.trans (hb x hxbs)

theorem sortByKey_pairwise {α β : Type} [LinearOrder β] (k : α → β) :
    ∀ l : List α, (sortByKey k l).Pairwise (fun x y => k x ≤ k y)
  | [] => by simp [sortByKey]
  | a :: as => insertByKey_pairwise k a (sortByKey_pairwise k as)

theorem insertByKey_filter {α β : Type} [LinearOrder β] (k : α → β) (v : β)
    (a : α) : ∀ l : List α,
    (insertByKey k a l).filter (fun x => decide (k x = v)) =
      if k a = v then a :: l.filter (fun x => decide (k x = v))
      else l.filter (fun x => decide (k x = v))
  | [] => by
    simp only [insertByKey, List.filter]
    by_cases hav : k a = v <;> simp [hav]
  | b :: bs => by
    unfold insertByKey
    by_cases hlt : k b < k a
    · rw [if_pos hlt]
      by_cases hbv : k b = v
      · have hav : ¬ k a = v := fun hav => (ne_of_lt hlt) (hbv.trans hav.symm)
        simp [List.filter_cons, hbv, hav, insertByKey_filter k v a bs]
      · simp [List.filter_cons, hbv, insertByKey_filter k v a bs]
    · rw [if_neg hlt]
      by_cases hav : k a = v <;> simp [List.filter_cons, hav]

theorem sortByKey_filter {α β : Type} [LinearOrder β] (k : α → β) (v : β) :
    ∀ l : List α,
    (sortByKey k l).filter (fun x => decide (k x = v)) =
      l.filter (fun x => decide (k x = v))
  | [] => rfl
  | a :: as => by
    unfold sortByKey
    rw [insertByKey_filter k v a (sortByKey k as), sortByKey_filter k v as]
    by_cases hav : k a = v <;> simp [List.filter_cons, hav]

/-! ### Lemmas about traces and the export loop -/

theorem renames_append : ∀ t₁ t₂ : List Event,
    renames (t₁ ++ t₂) = renames t₁ ++ renames t₂
  | [], _ => rfl
  | e :: es, t₂ => by
    cases e <;> simp [renames, renames_append es t₂]

theorem dests_append : ∀ t₁ t₂ : List Event,
    dests (t₁ ++ t₂) = dests t₁ ++ dests t₂
  | [], _ => rfl
  | e :: es, t₂ => by
    cases e <;> simp [dests, dests_append es t₂]

/-- With `keep_original_filename=false` and every download returning at
least one file, the loop completes and its renames are exactly: for the
j-th item (counting from the initial counter value `n`), its first file
renamed to the zero-padded counter plus the original extension, joined
back into the file's own directory. -/
theorem exportLoop_renames (saveto : String) :
    ∀ (items : List MediaItem) (n : Nat),
    (∀ it ∈ items, ∃ f fs, it.dl = Except.ok (f :: fs)) →
    renames (exportLoop saveto false items n).1 =
      (List.enumFrom n items).map (fun p =>
        (firstFile p.2, renameTarget p.1 (firstFile p.2))) ∧
    (exportLoop saveto false items n).2 = Outcome.completed
  | [], _, _ => ⟨rfl, rfl⟩
  | it :: rest, n, h => by
    obtain ⟨f, fs, hdl⟩ := h it (List.mem_cons_self it rest)
    have hrest := exportLoop_renames saveto rest (n + 1)
      (fun x hx => h x (List.mem_cons_of_mem it hx))
    have hff : firstFile it = f := by simp [firstFile, hdl]
    simp only [exportLoop, hdl, List.enumFrom, List.map_cons, hff]
    exact ⟨by simp [renames, hrest.1], hrest.2⟩

/-- Every download event of the loop uses the destination directory the
loop was given. -/
theorem exportLoop_dests (saveto : String) (keep : Bool) :
    ∀ (items : List MediaItem) (n : Nat),
    ∀ x ∈ dests (exportLoop saveto keep items n).1, x = saveto
  | [], _ => by simp [exportLoop, dests]
  | it :: rest, n => by
    intro x hx
    rcases hdl : it.dl with e | files
    · simp [exportLoop, hdl, dests] at hx
    · by_cases hk : keep
      · simp only [exportLoop, hdl, hk, if_true, dests, List.mem_cons] at hx
        rcases hx with hx | hx
        · exact hx
        · exact exportLoop_dests saveto true rest n x hx
      · rcases files with _ | ⟨f, fs⟩
        · simp [exportLoop, hdl, hk, dests] at hx
          exact hx
        · simp only [exportLoop, hdl, hk, if_false, dests, List.mem_cons] at hx
          rcases hx with hx | hx
          · exact hx
          · exact exportLoop_dests saveto false rest (n + 1) x hx

/-- The export loop never emits print or playlist-access events, so its
trace is all writes; conversely the loop is the only emitter of writes in
a run.  What the surrounding code contributes are print events only, and
those contribute neither renames nor download destinations. -/
theorem renames_printGroups : ∀ g, renames (printGroups g) = []
  | [] => rfl
  | e :: g => by
    have h : ∀ ts : List String, renames (ts.map Event.print ++ printGroups g) =
        renames (printGroups g) := by
      intro ts
      induction ts with
      | nil => rfl
      | cons t ts ih => simpa [renames] using ih
    simp [printGroups, renames, h, renames_printGroups g]

/-! ### Lemmas about the grouping of `list_playlists` -/

/-- The titles stored under a category in the grouping (first entry with
that key, as `dict.get`). -/
def lookupG (c : String) : List (String × List String) → Option (List String)
  | [] => none
  | e :: es => if e.1 = c then some e.2 else lookupG c es

/-- The categories of a playlist sequence in order of first appearance,
relative to a set of already-seen categories. -/
def firstSeenAux (seen : List String) : List String → List String
  | [] => []
  | c :: cs =>
    if c ∈ seen then firstSeenAux seen cs
    else c :: firstSeenAux (c :: seen) cs

/-- The categories of a playlist sequence in order of first appearance. -/
def firstSeen (l : List String) : List String :=
  firstSeenAux [] l

theorem firstSeenAux_congr (s₁ s₂ : List String)
    (h : ∀ x, x ∈ s₁ ↔ x ∈ s₂) : ∀ l, firstSeenAux s₁ l = firstSeenAux s₂ l
  | [] => rfl
  | c :: cs => by
    unfold firstSeenAux
    by_cases hc : c ∈ s₁
    · rw [if_pos hc, if_pos ((h c).mp hc), firstSeenAux_congr s₁ s₂ h cs]
    · rw [if_neg hc, if_neg (fun hk => hc ((h c).mpr hk)),
        firstSeenAux_congr (c :: s₁) (c :: s₂)
          (fun x => by simp [h x]) cs]

theorem lookupG_eq_find (c : String) :
    ∀ acc : List (String × List String),
    lookupG c acc = (acc.find? (fun e => e.1 == c)).map (fun e => e.2)
  | [] => rfl
  | e :: es => by
    by_cases hec : e.1 = c
    · rw [List.find?_cons_of_pos _ (by simp [hec])]
      simp [lookupG, hec]
    · rw [List.find?_cons_of_neg _ (by simp [hec])]
      simp [lookupG, hec, lookupG_eq_find c es]

theorem find_isSome_iff_mem (c : String) :
    ∀ acc : List (String × List String),
    ((acc.find? (fun e => e.1 == c)).isSome = true) ↔ c ∈ acc.map Prod.fst
  | [] => by simp
  | e :: es => by
    by_cases he : e.1 = c
    · rw [List.find?_cons_of_pos _ (by simp [he])]
      simp [he]
    · rw [List.find?_cons_of_neg _ (by simp [he])]
      rw [find_isSome_iff_mem c es]
      constructor
      · intro h
        exact List.mem_cons_of_mem _ h
      · intro h
        rcases List.mem_cons.mp h with h | h
        · exact absurd h.symm he
        · exact h

theorem lookupG_mapUpd (t title c : String) :
    ∀ acc : List (String × List String),
    lookupG c (acc.map (fun e =>
      if e.1 == t then (e.1, e.2 ++ [title]) else e)) =
      if c = t then (lookupG c acc).map (fun l => l ++ [title])
      else lookupG c acc
  | [] => by by_cases hct : c = t <;> simp [lookupG, hct]
  | e :: es => by
    rw [List.map_cons]
    by_cases het : e.1 = t
    · rw [show (if e.1 == t then (e.1, e.2 ++ [title]) else e) =
        (e.1, e.2 ++ [title]) from by simp [het]]
      by_cases hec : e.1 = c
      · have hct : c = t := by rw [← hec]; exact het
        rw [if_pos hct]
        simp [lookupG, hec]
      · have hct : ¬ c = t := fun h => hec (het.trans h.symm)
        rw [if_neg hct]
        simp only [lookupG, if_neg hec]
        simpa [hct] using lookupG_mapUpd t title c es
    · rw [show (if e.1 == t then (e.1, e.2 ++ [title]) else e) = e from
        by simp [het]]
      by_cases hec : e.1 = c
      · have hct : ¬ c = t := fun h => het (hec.trans h)
        rw [if_neg hct]
        simp [lookupG, hec]
      · simp only [lookupG, if_neg hec]
        rw [lookupG_mapUpd t title c es]

theorem lookupG_append_single (t c : String) (ts : List String) :
    ∀ acc : List (String × List String),
    lookupG c (acc ++ [(t, ts)]) =
      if (lookupG c acc).isSome then lookupG c acc
      else if c = t then some ts else none
  | [] => by
    by_cases hct : c = t
    · simp [lookupG, hct]
    · have htc : ¬ t = c := fun h => hct h.symm
      simp [lookupG, hct, htc]
  | e :: es => by
    by_cases hec : e.1 = c
    · simp [lookupG, hec]
    · simp [lookupG, hec, lookupG_append_single t c ts es]

theorem addPl_keys (acc : List (String × List String)) (pl : Playlist) :
    (addPl acc pl).map Prod.fst =
      if pl.playlistType ∈ acc.map Prod.fst then acc.map Prod.fst
      else acc.map Prod.fst ++ [pl.playlistType] := by
  unfold addPl
  by_cases hf : ((acc.find? (fun e => e.1 == pl.playlistType)).isSome = true)
  · rw [if_pos hf, if_pos ((find_isSome_iff_mem pl.playlistType acc).mp hf)]
    rw [List.map_map]
    refine List.map_congr_left ?_
    intro e _
    by_cases he : e.1 = pl.playlistType <;> simp [he]
  · rw [if_neg hf, if_neg
      (fun hm => hf ((find_isSome_iff_mem pl.playlistType acc).mpr hm))]
    simp

theorem addPl_lookup (acc : List (String × List String)) (pl : Playlist)
    (c : String) :
    lookupG c (addPl acc pl) =
      if c = pl.playlistType then
        some ((lookupG c acc).getD [] ++ [pl.title])
      else lookupG c acc := by
  unfold addPl
  by_cases hf : ((acc.find? (fun e => e.1 == pl.playlistType)).isSome = true)
  · rw [if_pos hf, lookupG_mapUpd]
    by_cases hct : c = pl.playlistType
    · rw [if_pos hct, if_pos hct]
      have hsome : (lookupG c acc).isSome = true := by
        rw [lookupG_eq_find, hct]
        simpa using hf
      obtain ⟨l, hl⟩ := Option.isSome_iff_exists.mp hsome
      simp [hl]
    · rw [if_neg hct, if_neg hct]
  · rw [if_neg hf, lookupG_append_single]
    by_cases hct : c = pl.playlistType
    · have hnone : lookupG c acc = none := by
        rw [lookupG_eq_find, hct]
        exact Option.not_isSome_iff_eq_none.mp (by simpa using hf)
      rw [hnone, hct]
      simp
    · rcases hl : lookupG c acc with _ | l <;> simp [hct, hl]

theorem groupAux_keys :
    ∀ (pls : List Playlist) (acc : List (String × List String)),
    (groupAux acc pls).map Prod.fst =
      acc.map Prod.fst ++
        firstSeenAux (acc.map Prod.fst) (pls.map Playlist.playlistType)
  | [], acc => by simp [groupAux, firstSeenAux]
  | pl :: pls, acc => by
    rw [show groupAux acc (pl :: pls) = groupAux (addPl acc pl) pls from rfl,
      groupAux_keys pls (addPl acc pl), addPl_keys]
    by_cases hm : pl.playlistType ∈ acc.map Prod.fst
    · rw [if_pos hm]
      simp only [List.map_cons, firstSeenAux, if_pos hm]
    · rw [if_neg hm]
      simp only [List.map_cons, firstSeenAux, if_neg hm]
      rw [firstSeenAux_congr
        (acc.map Prod.fst ++ [pl.playlistType])
        (pl.playlistType :: acc.map Prod.fst)
        (fun x => by simp; tauto)]
      simp

theorem groupAux_lookup :
    ∀ (pls : List Playlist) (acc : List (String × List String)) (c : String),
    lookupG c (groupAux acc pls) =
      if (lookupG c acc).isSome ∨
          pls.any (fun pl => pl.playlistType == c) then
        some ((lookupG c acc).getD [] ++
          (pls.filter (fun pl => pl.playlistType == c)).map Playlist.title)
      else none
  | [], acc, c => by
    rcases hl : lookupG c acc with _ | l <;> simp [groupAux, hl]
  | pl :: pls, acc, c => by
    rw [show groupAux acc (pl :: pls) = groupAux (addPl acc pl) pls from rfl,
      groupAux_lookup pls (addPl acc pl) c, addPl_lookup]
    by_cases hct : c = pl.playlistType
    · rw [if_pos hct]
      simp only [Option.isSome_some, true_or, if_true, List.any_cons,
        List.filter_cons, hct, beq_self_eq_true, if_true, Option.getD_some,
        List.map_cons]
      rcases hl : lookupG c acc with _ | l <;> simp [hl]
    · rw [if_neg hct]
      have hbeq : (pl.playlistType == c) = false := by
        simp
        exact fun h => hct h.symm
      simp [List.any_cons, List.filter_cons, hbeq]

/-! ### Helper lemmas about whole runs -/

theorem dlOk_iff (it : MediaItem) :
    dlOk it = true ↔ ∃ f fs, it.dl = Except.ok (f :: fs) := by
  rcases hdl : it.dl with e | files
  · simp [dlOk, hdl]
  · rcases files with _ | ⟨f, fs⟩
    · simp [dlOk, hdl]
    · simp [dlOk, hdl]

/-- A download run that gets past connect, lookup and account switch is
the trace of `downloadRest` behind a prefix of print/access events; the
prefix contains the playlist access and no writes. -/
theorem download_playlist_trace (w : World) (o : DownloadOptions)
    (pl : Playlist) (hc : w.connect = Except.ok ())
    (hpl : plexPlaylist w.catalog o.playlist = Except.ok pl)
    (hsw : ∀ u, o.user = some u → w.switch = Except.ok ()) :
    ∃ pre : List Event,
      download_playlist w o = (pre ++ (downloadRest o pl).1, (downloadRest o pl).2) ∧
      renames pre = [] ∧ dests pre = [] ∧ noWrites pre = true ∧
      Event.playlistAccess ∈ pre := by
  rcases hu : o.user with _ | u
  · refine ⟨[Event.print "Connecting to plex... done", Event.playlistAccess,
      Event.print "Getting playlist... done"], ?_, rfl, rfl, rfl, by simp⟩
    simp [download_playlist, hc, hpl, hu]
  · have hs := hsw u hu
    refine ⟨[Event.print "Connecting to plex... done", Event.playlistAccess,
      Event.print "Getting playlist... done",
      Event.print ("Switching to managed account " ++ u ++ "... done")],
      ?_, rfl, rfl, ?_, by simp⟩
    · simp [download_playlist, hc, hpl, hu, hs]
    · simp [noWrites, isWrite]

/-- The renames of `downloadRest` when renaming is on, the order
succeeds and every item downloads at least one file. -/
theorem downloadRest_renames (o : DownloadOptions) (pl : Playlist)
    (ordered : List MediaItem)
    (hord : orderItems o.orderby pl.items = Except.ok ordered)
    (hkeep : o.keep_original_filename = false)
    (hfiles : ordered.all dlOk = true) :
    renames (downloadRest o pl).1 =
      (List.enumFrom 1 ordered).map
        (fun p => (firstFile p.2, renameTarget p.1 (firstFile p.2))) ∧
    (downloadRest o pl).2 = Outcome.completed := by
  have hfiles2 : ∀ it ∈ ordered, ∃ f fs, it.dl = Except.ok (f :: fs) :=
    fun it hit => (dlOk_iff it).mp (List.all_eq_true.mp hfiles it hit)
  have hloop := exportLoop_renames (savetoPath pl.title o.saveto) ordered 1 hfiles2
  simp only [downloadRest, hord, hkeep]
  refine ⟨?_, hloop.2⟩
  simp [renames, renames_append, hloop.1, hloop.2]

/-- Every download destination appearing in `downloadRest` is the
computed `savetoPath`. -/
theorem downloadRest_dests (o : DownloadOptions) (pl : Playlist) :
    ∀ x ∈ dests (downloadRest o pl).1, x = savetoPath pl.title o.saveto := by
  intro x hx
  rcases hord : orderItems o.orderby pl.items with e | items
  · simp [downloadRest, hord, dests] at hx
  · simp only [downloadRest, hord, dests, dests_append, List.mem_append] at hx
    rcases hx with hx | hx
    · exact exportLoop_dests _ _ items 1 x hx
    · generalize (exportLoop (savetoPath pl.title o.saveto)
        o.keep_original_filename items 1).2 = out at hx
      cases out <;> simp [dests] at hx

/-! ### Concrete fixtures used by witnesses and counterexamples -/

/-- An item whose download yields a primary file and a sidecar file. -/
def exItemB : MediaItem :=
  ⟨[("idx", 2)], Except.ok ["./Road Trip/b.mp3", "./Road Trip/b.srt"]⟩

/-- An item whose download yields a single file. -/
def exItemA : MediaItem :=
  ⟨[("idx", 1)], Except.ok ["./Road Trip/a.flac"]⟩

/-- A concrete playlist of the two items above. -/
def exPl : Playlist := ⟨"Road Trip", "audio", 2, [exItemB, exItemA]⟩

/-- A healthy server holding `exPl`. -/
def exW : World := ⟨Except.ok (), Except.ok (), [exPl]⟩

/-- Options targeting `exPl` with all defaults. -/
def exO : DownloadOptions :=
  ⟨"http://192.168.0.100:32400", "token", some "Road Trip", none, none,
    false, none⟩

/-! ### The claims -/

/-- C1: with `keepOriginalNames=false`, a run that connects, resolves the
playlist, switches successfully if asked, orders its items and downloads
at least one file per item performs exactly one rename per item, in
export order: the N-th item's first downloaded file (and only that file)
is renamed to the `%03d`-formatted counter value N plus the original
file's extension, with the counter starting at 1 and increasing by one
per renamed file (no gaps).  Files beyond the first of any item never
appear as a rename source. -/
theorem claim1_sequential_renames (w : World) (o : DownloadOptions)
    (pl : Playlist) (ordered : List MediaItem)
    (hc : w.connect = Except.ok ())
    (hpl : plexPlaylist w.catalog o.playlist = Except.ok pl)
    (hsw : ∀ u, o.user = some u → w.switch = Except.ok ())
    (hord : orderItems o.orderby pl.items = Except.ok ordered)
    (hkeep : o.keep_original_filename = false)
    (hfiles : ordered.all dlOk = true) :
    renames (download_playlist w o).1 =
      (List.enumFrom 1 ordered).map
        (fun p => (firstFile p.2, renameTarget p.1 (firstFile p.2))) := by
  obtain ⟨pre, heq, hpre, -, -, -⟩ := download_playlist_trace w o pl hc hpl hsw
  have hrest := downloadRest_renames o pl ordered hord hkeep hfiles
  simp [heq, renames_append, hpre, hrest.1]

/-- C1 witness: the run on the concrete fixture renames
`./Road Trip/b.mp3` to `./Road Trip/001.mp3` and `./Road Trip/a.flac` to
`./Road Trip/002.flac`, leaving the sidecar `./Road Trip/b.srt` alone. -/
theorem claim1_witness :
    renames (download_playlist exW exO).1 =
      [("./Road Trip/b.mp3", "./Road Trip/001.mp3"),
       ("./Road Trip/a.flac", "./Road Trip/002.flac")] :=
  (claim1_sequential_renames exW exO exPl exPl.items rfl (by decide)
    (fun u h => nomatch h) rfl rfl (by decide)).trans (by decide)

/-- C4: when every item carries the sort attribute, `orderItems` succeeds
and returns a permutation of the input that is non-decreasing in the
attribute and stable: for every attribute value, the items holding that
value appear in the output exactly in their input order. -/
theorem claim4_order_sorted_stable (key : String) (items : List MediaItem)
    (h : ∀ it ∈ items, (getAttr it key).isSome = true) :
    ∃ l, orderItems (some key) items = Except.ok l ∧
      l.Perm items ∧
      l.Pairwise (fun x y => getAttrD x key ≤ getAttrD y key) ∧
      ∀ v : Int, l.filter (fun it => decide (getAttrD it key = v)) =
        items.filter (fun it => decide (getAttrD it key = v)) := by
  have hall : items.all (fun it => (getAttr it key).isSome) = true :=
    List.all_eq_true.mpr h
  exact ⟨sortByKey (fun it => getAttrD it key) items,
    by simp [orderItems, hall],
    sortByKey_perm _ items,
    sortByKey_pairwise _ items,
    fun v => sortByKey_filter _ v items⟩

/-- C4 witness: a three-item list with a duplicated key value. -/
theorem claim4_witness :
    ∃ l, orderItems (some "idx")
        [⟨[("idx", 2)], Except.ok ["x"]⟩, ⟨[("idx", 1)], Except.ok ["y"]⟩,
         ⟨[("idx", 2)], Except.ok ["z"]⟩] = Except.ok l ∧
      l.Perm [⟨[("idx", 2)], Except.ok ["x"]⟩, ⟨[("idx", 1)], Except.ok ["y"]⟩,
         ⟨[("idx", 2)], Except.ok ["z"]⟩] ∧
      l.Pairwise (fun x y => getAttrD x "idx" ≤ getAttrD y "idx") ∧
      ∀ v : Int, l.filter (fun it => decide (getAttrD it "idx" = v)) =
        [⟨[("idx", 2)], Except.ok ["x"]⟩, ⟨[("idx", 1)], Except.ok ["y"]⟩,
         ⟨[("idx", 2)], Except.ok ["z"]⟩].filter
          (fun it => decide (getAttrD it "idx" = v)) :=
  claim4_order_sorted_stable "idx" _ (by decide)

/-- C5: when some item lacks the sort attribute, `orderItems` fails with
`AttributeError` and yields no reordered list at all; in a download run
that reaches the ordering step, the error propagates (uncaught) and no
download or rename is performed. -/
theorem claim5_missing_attribute (key : String) (items : List MediaItem)
    (h : items.all (fun it => (getAttr it key).isSome) = false) :
    orderItems (some key) items = Except.error PyError.attributeError ∧
    ∀ (w : World) (o : DownloadOptions) (pl : Playlist),
      w.connect = Except.ok () →
      plexPlaylist w.catalog o.playlist = Except.ok pl →
      (∀ u, o.user = some u → w.switch = Except.ok ()) →
      o.orderby = some key → pl.items = items →
      (download_playlist w o).2 = Outcome.raised PyError.attributeError ∧
      noWrites (download_playlist w o).1 = true := by
  have hord : orderItems (some key) items = Except.error PyError.attributeError := by
    simp [orderItems, h]
  refine ⟨hord, ?_⟩
  intro w o pl hc hpl hsw hob hits
  obtain ⟨pre, heq, -, -, hnw, -⟩ := download_playlist_trace w o pl hc hpl hsw
  have hrest : downloadRest o pl =
      ([Event.print ("Iterating playlist... " ++ toString pl.leafCount ++
        " items found")], Outcome.raised PyError.attributeError) := by
    simp [downloadRest, hob, hits, hord]
  rw [heq, hrest]
  refine ⟨rfl, ?_⟩
  simp only [noWrites, List.all_append, Bool.and_eq_true]
  exact ⟨hnw, by simp [isWrite]⟩

/-- Options asking for a sort key the fixture items do not carry. -/
def exO5 : DownloadOptions :=
  ⟨"http://192.168.0.100:32400", "token", some "Road Trip", none,
    some "year", false, none⟩

/-- C5 witness: an item without the attribute aborts the concrete run
with an uncaught `AttributeError` and nothing written. -/
theorem claim5_witness :
    orderItems (some "year") exPl.items = Except.error PyError.attributeError ∧
    (download_playlist exW exO5).2 = Outcome.raised PyError.attributeError :=
  ⟨(claim5_missing_attribute "year" exPl.items (by decide)).1,
   ((claim5_missing_attribute "year" exPl.items (by decide)).2
      exW exO5 exPl rfl (by decide) (fun u h => nomatch h) rfl rfl).1⟩

/-- C6: when no catalog playlist bears the requested name, resolution
fails with `NotFound`; the download run aborts with the lookup-stage
message, which differs from the trace a connection failure produces, so
the two failures are distinguishable by the caller. -/
theorem claim6_notfound_distinct (w : World) (o : DownloadOptions)
    (hc : w.connect = Except.ok ())
    (hnf : ∀ pl ∈ w.catalog, some pl.title ≠ o.playlist) :
    plexPlaylist w.catalog o.playlist = Except.error LookupError.notFound ∧
    download_playlist w o =
      ([Event.print "Connecting to plex... done", Event.playlistAccess,
        Event.print "Getting playlist... failed"], Outcome.aborted) ∧
    (∀ (w2 : World) (o2 : DownloadOptions) (e : ConnError),
      w2.connect = Except.error e →
      download_playlist w2 o2 =
        ([Event.print "Connecting to plex... failed"], Outcome.aborted)) ∧
    ([Event.print "Connecting to plex... done", Event.playlistAccess,
      Event.print "Getting playlist... failed"] : List Event) ≠
      [Event.print "Connecting to plex... failed"] := by
  have hfind : w.catalog.find? (fun pl => some pl.title == o.playlist) = none :=
    List.find?_eq_none.mpr (fun pl hpl => by simpa using hnf pl hpl)
  have hlk : plexPlaylist w.catalog o.playlist =
      Except.error LookupError.notFound := by
    simp [plexPlaylist, hfind]
  refine ⟨hlk, ?_, ?_, by decide⟩
  · simp [download_playlist, hc, hlk]
  · intro w2 o2 e he
    simp [download_playlist, he]

/-- Options naming a playlist the fixture server does not have. -/
def exO6 : DownloadOptions :=
  ⟨"http://192.168.0.100:32400", "token", some "No Such List", none, none,
    false, none⟩

/-- C6 witness: the missing playlist `No Such List` on the fixture
server. -/
theorem claim6_witness :
    plexPlaylist exW.catalog exO6.playlist = Except.error LookupError.notFound ∧
    download_playlist exW exO6 =
      ([Event.print "Connecting to plex... done", Event.playlistAccess,
        Event.print "Getting playlist... failed"], Outcome.aborted) ∧
    (∀ (w2 : World) (o2 : DownloadOptions) (e : ConnError),
      w2.connect = Except.error e →
      download_playlist w2 o2 =
        ([Event.print "Connecting to plex... failed"], Outcome.aborted)) ∧
    ([Event.print "Connecting to plex... done", Event.playlistAccess,
      Event.print "Getting playlist... failed"] : List Event) ≠
      [Event.print "Connecting to plex... failed"] :=
  claim6_notfound_distinct exW exO6 rfl (by decide)

/-- C7: the grouping of `list_playlists` maps each category, in order of
first appearance, to the titles of its playlists in order of appearance;
the empty catalog yields the empty grouping, and a run over any catalog
(the empty one included) completes rather than failing. -/
theorem claim7_grouping (w : World) (o : DownloadOptions)
    (pls : List Playlist) (hc : w.connect = Except.ok ())
    (hsw : ∀ u, o.user = some u → w.switch = Except.ok ()) :
    groupBySection [] = [] ∧
    (groupBySection pls).map Prod.fst =
      firstSeen (pls.map Playlist.playlistType) ∧
    (∀ c, lookupG c (groupBySection pls) =
      if pls.any (fun pl => pl.playlistType == c) then
        some ((pls.filter (fun pl => pl.playlistType == c)).map Playlist.title)
      else none) ∧
    (list_playlists w o).2 = Outcome.completed := by
  refine ⟨rfl, ?_, ?_, ?_⟩
  · simpa [groupBySection, firstSeen] using groupAux_keys pls []
  · intro c
    simpa [groupBySection, lookupG] using groupAux_lookup pls [] c
  · rcases hu : o.user with _ | u
    · simp [list_playlists, hc, hu]
    · have hs := hsw u hu
      simp [list_playlists, hc, hu, hs]

/-- Fixture playlists with interleaved categories. -/
def exCat : List Playlist :=
  [⟨"A", "audio", 0, []⟩, ⟨"B", "video", 0, []⟩, ⟨"C", "audio", 0, []⟩]

/-- C7 witness: grouping the interleaved fixture catalog. -/
theorem claim7_witness :
    groupBySection [] = [] ∧
    (groupBySection exCat).map Prod.fst =
      firstSeen (exCat.map Playlist.playlistType) ∧
    (∀ c, lookupG c (groupBySection exCat) =
      if exCat.any (fun pl => pl.playlistType == c) then
        some ((exCat.filter (fun pl => pl.playlistType == c)).map
          Playlist.title)
      else none) ∧
    (list_playlists exW exO).2 = Outcome.completed :=
  claim7_grouping exW exO exCat rfl (fun _ h => nomatch h)

/-- C8: when `--save-to` is absent, the destination used for every
download of the run is `./<playlist title>/`, the playlist's title as a
relative subdirectory of the current working location. -/
theorem claim8_default_destination (w : World) (o : DownloadOptions)
    (pl : Playlist) (hc : w.connect = Except.ok ())
    (hpl : plexPlaylist w.catalog o.playlist = Except.ok pl)
    (hsw : ∀ u, o.user = some u → w.switch = Except.ok ())
    (hsave : o.saveto = none) :
    savetoPath pl.title o.saveto = "./" ++ pl.title ++ "/" ∧
    ∀ d ∈ dests (download_playlist w o).1, d = "./" ++ pl.title ++ "/" := by
  obtain ⟨pre, heq, -, hdests, -, -⟩ := download_playlist_trace w o pl hc hpl hsw
  constructor
  · rw [hsave]
    rfl
  · intro d hd
    simp only [heq, dests_append, hdests, List.nil_append] at hd
    have hsd := downloadRest_dests o pl d hd
    rw [hsave] at hsd
    exact hsd

/-- C8 witness: the fixture run downloads into `./Road Trip/`. -/
theorem claim8_witness :
    savetoPath exPl.title exO.saveto = "./" ++ exPl.title ++ "/" ∧
    ∀ d ∈ dests (download_playlist exW exO).1, d = "./" ++ exPl.title ++ "/" :=
  claim8_default_destination exW exO exPl rfl (by decide)
    (fun u h => nomatch h) rfl

/-- C9: an explicit `--save-to <p>` is embedded verbatim into the pattern
`./<p>/` — even an absolute path — so every destination is taken relative
to the current working directory. -/
theorem claim9_saveto_embedded (w : World) (o : DownloadOptions)
    (pl : Playlist) (p : String) (hc : w.connect = Except.ok ())
    (hpl : plexPlaylist w.catalog o.playlist = Except.ok pl)
    (hsw : ∀ u, o.user = some u → w.switch = Except.ok ())
    (hsave : o.saveto = some p) :
    savetoPath pl.title o.saveto = "./" ++ p ++ "/" ∧
    ∀ d ∈ dests (download_playlist w o).1, d = "./" ++ p ++ "/" := by
  obtain ⟨pre, heq, -, hdests, -, -⟩ := download_playlist_trace w o pl hc hpl hsw
  constructor
  · rw [hsave]
    rfl
  · intro d hd
    simp only [heq, dests_append, hdests, List.nil_append] at hd
    have hsd := downloadRest_dests o pl d hd
    rw [hsave] at hsd
    exact hsd

/-- Options that save to the absolute path `/music`. -/
def exO9 : DownloadOptions :=
  ⟨"http://192.168.0.100:32400", "token", some "Road Trip", some "/music",
    none, false, none⟩

/-- C9 witness: the absolute path `/music` is embedded, producing the
destination `.//music/` rather than `/music` itself. -/
theorem claim9_witness :
    savetoPath exPl.title exO9.saveto = ".//music/" ∧
    ∀ d ∈ dests (download_playlist exW exO9).1, d = ".//music/" := by
  have h := claim9_saveto_embedded exW exO9 exPl "/music" rfl (by decide)
    (fun u h => nomatch h) rfl
  exact ⟨h.1.trans (by decide), fun d hd => (h.2 d hd).trans (by decide)⟩

/-- C10: with neither `--playlist` nor `--list` supplied, the mode group
(created without `required=True`) accepts the invocation, and `main`
dispatches to the download path with a playlist name of `None`. -/
theorem claim10_default_mode (w : World) (a : Args)
    (h1 : a.playlist = none) (h2 : a.list = false) :
    modeConflict a = false ∧
    mainRun w a = download_playlist w (toOptions a) ∧
    (toOptions a).playlist = none := by
  refine ⟨?_, ?_, ?_⟩
  · simp [modeConflict, h1]
  · simp [mainRun, modeConflict, h1, h2]
  · simp [toOptions, h1]

/-- A parse result with neither mode flag. -/
def exArgs : Args :=
  ⟨none, false, "http://192.168.0.100:32400", "token", none, none, false,
    none⟩

/-- C10 witness: the default invocation on the fixture server. -/
theorem claim10_witness :
    modeConflict exArgs = false ∧
    mainRun exW exArgs = download_playlist exW (toOptions exArgs) ∧
    (toOptions exArgs).playlist = none :=
  claim10_default_mode exW exArgs rfl rfl

/-- A server that accepts the connection but rejects the account
switch. -/
def exW2 : World :=
  ⟨Except.ok (), Except.error ConnError.unauthorized, [exPl]⟩

/-- Options that download `Road Trip` as the managed account `Kids`. -/
def exO2 : DownloadOptions :=
  ⟨"http://192.168.0.100:32400", "token", some "Road Trip", none, none,
    false, some "Kids"⟩

/-- C2 counterexample: in the download path the script resolves the
playlist before attempting the account switch (line 78 runs before line
87), so a run whose switch fails with `Unauthorized` has already accessed
the playlist when it aborts — the claim that the abort happens before any
playlist access fails on this path. -/
theorem claim2_counterexample :
    exW2.switch = Except.error ConnError.unauthorized ∧
    exO2.user = some "Kids" ∧
    (download_playlist exW2 exO2).2 = Outcome.aborted ∧
    Event.playlistAccess ∈ (download_playlist exW2 exO2).1 := by
  decide

/-- C2 (amended): with a reachable server and a failing account switch,
the list path aborts before any playlist access with no file written;
the download path resolves the playlist first and then aborts at the
switch, still with no file written. -/
theorem claim2_amended (w : World) (o : DownloadOptions) (u : String)
    (e : ConnError) (hc : w.connect = Except.ok ())
    (hu : o.user = some u) (hs : w.switch = Except.error e) :
    ((list_playlists w o).2 = Outcome.aborted ∧
      Event.playlistAccess ∉ (list_playlists w o).1 ∧
      noWrites (list_playlists w o).1 = true) ∧
    ((download_playlist w o).2 = Outcome.aborted ∧
      noWrites (download_playlist w o).1 = true) := by
  constructor
  · have hl : list_playlists w o =
        ([Event.print "Connecting to plex... done",
          Event.print ("Switching to managed account " ++ u ++ "... failed")],
         Outcome.aborted) := by
      simp [list_playlists, hc, hu, hs]
    rw [hl]
    refine ⟨rfl, ?_, ?_⟩
    · simp
    · simp [noWrites, isWrite]
  · rcases hpl : plexPlaylist w.catalog o.playlist with le | pl
    · have hd : download_playlist w o =
          ([Event.print "Connecting to plex... done", Event.playlistAccess,
            Event.print "Getting playlist... failed"], Outcome.aborted) := by
        simp [download_playlist, hc, hpl]
      rw [hd]
      exact ⟨rfl, rfl⟩
    · have hd : download_playlist w o =
          ([Event.print "Connecting to plex... done", Event.playlistAccess,
            Event.print "Getting playlist... done",
            Event.print ("Switching to managed account " ++ u ++ "... failed")],
           Outcome.aborted) := by
        simp [download_playlist, hc, hpl, hu, hs]
      rw [hd]
      refine ⟨rfl, ?_⟩
      simp [noWrites, isWrite]

/-- C2 witness: the amended behaviour on the concrete fixture with the
rejected `Kids` switch. -/
theorem claim2_witness :
    ((list_playlists exW2 exO2).2 = Outcome.aborted ∧
      Event.playlistAccess ∉ (list_playlists exW2 exO2).1 ∧
      noWrites (list_playlists exW2 exO2).1 = true) ∧
    ((download_playlist exW2 exO2).2 = Outcome.aborted ∧
      noWrites (download_playlist exW2 exO2).1 = true) :=
  claim2_amended exW2 exO2 "Kids" ConnError.unauthorized rfl rfl rfl

/-- C3 counterexample: an `AttributeError` arising at the ordering step
is not caught anywhere (lines 99-114 contain no try/except), so the run
ends in an uncaught exception rather than a printed status — the claim
that every failure of the five kinds terminates without raising to an
unhandled fault fails on this input. -/
theorem claim3_counterexample :
    exO5.orderby = some "year" ∧
    (getAttr exItemB "year").isSome = false ∧
    (download_playlist exW exO5).2 = Outcome.raised PyError.attributeError := by
  decide

/-- C3 (amended): `Unauthorized` and `Unreachable` at connect or switch
and `NotFound` at lookup each print a status and end the operation
gracefully, but `AttributeError` from the ordering step and `IOError`
from an item download are uncaught and propagate as unhandled faults. -/
theorem claim3_amended :
    (∀ (w : World) (o : DownloadOptions) (e : ConnError),
      w.connect = Except.error e →
      download_playlist w o =
        ([Event.print "Connecting to plex... failed"], Outcome.aborted) ∧
      list_playlists w o =
        ([Event.print "Connecting to plex... failed"], Outcome.aborted)) ∧
    (∀ (w : World) (o : DownloadOptions),
      w.connect = Except.ok () →
      plexPlaylist w.catalog o.playlist = Except.error LookupError.notFound →
      download_playlist w o =
        ([Event.print "Connecting to plex... done", Event.playlistAccess,
          Event.print "Getting playlist... failed"], Outcome.aborted)) ∧
    (∀ (w : World) (o : DownloadOptions) (u : String) (e : ConnError),
      w.connect = Except.ok () → o.user = some u →
      w.switch = Except.error e →
      (download_playlist w o).2 = Outcome.aborted ∧
      (list_playlists w o).2 = Outcome.aborted) ∧
    (∀ (w : World) (o : DownloadOptions) (pl : Playlist) (key : String),
      w.connect = Except.ok () →
      plexPlaylist w.catalog o.playlist = Except.ok pl →
      (∀ u, o.user = some u → w.switch = Except.ok ()) →
      o.orderby = some key →
      pl.items.all (fun it => (getAttr it key).isSome) = false →
      (download_playlist w o).2 = Outcome.raised PyError.attributeError) ∧
    (∀ (w : World) (o : DownloadOptions) (pl : Playlist) (it : MediaItem)
        (rest : List MediaItem),
      w.connect = Except.ok () →
      plexPlaylist w.catalog o.playlist = Except.ok pl →
      (∀ u, o.user = some u → w.switch = Except.ok ()) →
      orderItems o.orderby pl.items = Except.ok (it :: rest) →
      it.dl = Except.error () →
      (download_playlist w o).2 = Outcome.raised PyError.ioError) := by
  refine ⟨?_, ?_, ?_, ?_, ?_⟩
  · intro w o e he
    exact ⟨by simp [download_playlist, he], by simp [list_playlists, he]⟩
  · intro w o hc hpl
    simp [download_playlist, hc, hpl]
  · intro w o u e hc hu hs
    constructor
    · rcases hpl : plexPlaylist w.catalog o.playlist with le | pl
      · simp [download_playlist, hc, hpl]
      · simp [download_playlist, hc, hpl, hu, hs]
    · simp [list_playlists, hc, hu, hs]
  · intro w o pl key hc hpl hsw hob hall
    obtain ⟨pre, heq, -, -, -, -⟩ := download_playlist_trace w o pl hc hpl hsw
    have hdr : (downloadRest o pl).2 =
        Outcome.raised PyError.attributeError := by
      simp [downloadRest, hob, orderItems, hall]
    simp [heq, hdr]
  · intro w o pl it rest hc hpl hsw hord hdl
    obtain ⟨pre, heq, -, -, -, -⟩ := download_playlist_trace w o pl hc hpl hsw
    have hloop : (exportLoop (savetoPath pl.title o.saveto)
        o.keep_original_filename (it :: rest) 1).2 =
        Outcome.raised PyError.ioError := by
      simp [exportLoop, hdl]
    have hdr : (downloadRest o pl).2 = Outcome.raised PyError.ioError := by
      simp [downloadRest, hord, hloop]
    simp [heq, hdr]

/-- A server that rejects the connection outright. -/
def exWBad : World := ⟨Except.error ConnError.unauthorized, Except.ok (), []⟩

/-- C3 witness: the graceful connect-failure path on a concrete server
that rejects the credentials. -/
theorem claim3_witness :
    download_playlist exWBad exO =
      ([Event.print "Connecting to plex... failed"], Outcome.aborted) ∧
    list_playlists exWBad exO =
      ([Event.print "Connecting to plex... failed"], Outcome.aborted) :=
  claim3_amended.1 exWBad exO ConnError.unauthorized rfl

end PlexPlaylistDownload
